import Mathlib

/-!
Shallow embedding of the go-filecoin storage deal client
(protocol/storage/client.go) and proofs about the properties
claimed of it.

Conventions of the embedding:
* Go `uint64` values are Lean `Nat`s; wherever Go performs fixed-width
  arithmetic whose wrap-around is observable, the embedding takes the
  result modulo 2^64 explicitly (`goMulUint64`, `toInt64`).
* `math/big` integers (attoFIL amounts) are Lean `Int`s.
* Content identifiers (`cid.Cid`) are modelled as `Nat`; the hashing
  function `convert.ToCid` and the textual rendering `Cid.String` live
  outside this repository, so they are passed as parameters and, where a
  claim depends on them, constrained by hypotheses taken from the spec.
* Fallible Go calls return `Except GoErr` or `Option GoErr`; the external
  collaborators consulted by a client operation are supplied as a record
  of their results, and each operation additionally reports the ordered
  list of collaborator calls it performed, so that claims about calls
  never being made are statable.
-/

namespace Storage

/-- Content identifier, modelled as a natural number. -/
abbrev Cid := Nat

/-- Account address; the Go zero value (empty address) is modelled as 0. -/
abbrev Address := Nat

/-- Libp2p peer identity. -/
abbrev PeerID := Nat

/-- Serialized bytes of a persisted deal (cbor.DumpObject output). -/
abbrev Datum := List Nat

/-- Go error values: either a fresh error (errors.New / fmt.Errorf) or a
wrapped error (errors.Wrap cause msg). -/
inductive GoErr
  | new (msg : String)
  | wrap (cause : GoErr) (msg : String)
deriving DecidableEq, Repr

/-- Whether the message `s` occurs somewhere in the error chain. -/
def GoErr.mentions : GoErr → String → Bool
  | .new m, s => m == s
  | .wrap c m, s => m == s || c.mentions s

/-- Modelled from the spec: the states of deal.Response (deal package is
not under src/): Accepted, Rejected, Failed, and a fourth value standing
for every other (unknown/invalid) state. -/
inductive DealState
  | accepted
  | rejected
  | failed
  | unknown
deriving DecidableEq, Repr

/-- Modelled from the spec: textual rendering of a deal state, used by
the "invalid proposal response" message. -/
def stateString : DealState → String
  | .accepted => "accepted"
  | .rejected => "rejected"
  | .failed => "failed"
  | .unknown => "unknown"

/-- Payment information embedded into a proposal (channel id, textual
funding-message cid, voucher sequence); Go zero value is ⟨0, "", []⟩. -/
structure Payment where
  channel : Nat
  channelMsgCid : String
  vouchers : List Nat
deriving DecidableEq, Repr

/-- Modelled from the spec: deal.Proposal (deal package is not under
src/), with exactly the fields client.go reads and writes. -/
structure Proposal where
  pieceRef : Cid
  size : Nat
  totalPrice : Int
  duration : Nat
  minerAddress : Address
  payment : Payment
  lastDuplicate : String
deriving DecidableEq, Repr

/-- Modelled from the spec: deal.Response with the fields client.go uses:
state, message, and the proposal identity it answers. -/
structure DealResponse where
  state : DealState
  message : String
  proposalCid : Cid
deriving DecidableEq, Repr

/-- Deal record: miner address, proposal and response (deal.Deal). -/
structure Deal where
  miner : Address
  proposal : Proposal
  response : DealResponse
deriving DecidableEq, Repr

/-- VoucherInterval constant from client.go. -/
def VoucherInterval : Nat := 1000

/-- ChannelExpiryBuffer constant from client.go. -/
def ChannelExpiryBuffer : Nat := 2000

/-- CreateChannelGasPrice constant from client.go. -/
def CreateChannelGasPrice : Nat := 0

/-- CreateChannelGasLimit constant from client.go. -/
def CreateChannelGasLimit : Nat := 300

/-- Error code ErrDuplicateDeal (iota value 1). -/
def ErrDuplicateDeal : Nat := 1

/-- The duplicate-deal error value stored in the Errors map. -/
def errDuplicateDealMsg : GoErr :=
  .new "proposal is a duplicate of existing deal; if you would like to create a duplicate, add the --allow-duplicates flag"

/-- Errors map from client.go, mapping error codes to error values. -/
def Errors (code : Nat) : Option GoErr :=
  if code = ErrDuplicateDeal then some errDuplicateDealMsg else none

/-- Go multiplication of two uint64 values: the product wraps modulo 2^64. -/
def goMulUint64 (a b : Nat) : Nat := (a * b) % 2 ^ 64

/-- Go conversion int64(x) of a uint64 value x: two's-complement
reinterpretation of the low 64 bits. -/
def toInt64 (n : Nat) : Int :=
  if n % 2 ^ 64 < 2 ^ 63 then ((n % 2 ^ 64 : Nat) : Int)
  else ((n % 2 ^ 64 : Nat) : Int) - 2 ^ 64

/-- The total price computed at client.go:130:
price.MulBigInt(big.NewInt(int64(size * duration))). The size×duration
product is a Go uint64 multiplication and therefore wraps before the
big-integer multiplication by price happens. -/
def totalPriceCalc (price : Int) (size duration : Nat) : Int :=
  price * toInt64 (goMulUint64 size duration)

/-- The proposal assembled at client.go:132-139 (payment fields still at
their zero value, lastDuplicate at its zero value ""). -/
def buildProposal (data : Cid) (size : Nat) (price : Int) (duration : Nat)
    (minerAddr : Address) : Proposal :=
  { pieceRef := data
    size := size
    totalPrice := totalPriceCalc price size duration
    duration := duration
    minerAddress := minerAddr
    payment := ⟨0, "", []⟩
    lastDuplicate := "" }

/-- The in-memory deals map (Go map[cid.Cid]*deal.Deal), modelled as an
association list; insertion conses, lookup finds the first matching key. -/
abbrev DealMap := List (Cid × Deal)

/-- Map lookup smc.deals[c]. -/
def DealMap.find? (m : DealMap) (c : Cid) : Option Deal :=
  (List.find? (fun p => p.1 == c) m).map Prod.snd

/-- The key set of the deals map, used by the duplicate-resolution loop's
membership tests. -/
def keysOf (m : DealMap) : Finset Cid := (m.map Prod.fst).toFinset

/-- Client state: the in-memory deals map plus the persistent datastore
contents (dealsDs), modelled as the list of successfully put key/value
pairs, newest first. -/
structure ClientState where
  deals : DealMap
  persisted : List (String × Datum)
deriving DecidableEq, Repr

/-- Modelled from the spec: the fixed deal-store namespace constant
(deal.ClientDatastorePrefix; the deal package is not under src/). -/
def clientNamespace : String := "client"

/-- datastore.KeyWithNamespaces([prefixConstant, cid.String()]). -/
def dealKey (cidString : Cid → String) (c : Cid) : String :=
  "/" ++ clientNamespace ++ "/" ++ cidString c

section WithCidString

variable (cidString : Cid → String)

/-- saveDeal from client.go:280-296: look the deal up in the in-memory
map, marshal it, and put it under the namespaced key. `marshal` stands
for cbor.DumpObject, `putErr` for the outcome of dealsDs.Put. The
in-memory map is never modified here. -/
def saveDeal (marshal : Deal → Except GoErr Datum) (putErr : Option GoErr)
    (st : ClientState) (c : Cid) : Option GoErr × ClientState :=
  match DealMap.find? st.deals c with
  | none => (some (.new ("Could not find client deal with cid: " ++ cidString c)), st)
  | some storageDeal =>
    match marshal storageDeal with
    | .error e => (some (e.wrap "could not marshal storageDeal"), st)
    | .ok datum =>
      match putErr with
      | some e =>
        (some (e.wrap "could not save client deal to disk, in-memory deals differ from persisted deals!"), st)
      | none => (none, { st with persisted := (dealKey cidString c, datum) :: st.persisted })

/-- recordResponse from client.go:205-219: fail if an entry already
exists for the proposal cid, otherwise insert the deal into the
in-memory map and persist it via saveDeal; a saveDeal failure is
returned but the inserted entry stays. -/
def recordResponse (marshal : Deal → Except GoErr Datum) (putErr : Option GoErr)
    (st : ClientState) (resp : DealResponse) (minerAddr : Address)
    (p : Proposal) (proposalCid : Cid) : Option GoErr × ClientState :=
  match DealMap.find? st.deals proposalCid with
  | some _ =>
    (some (.new ("deal [" ++ cidString proposalCid ++ "] is already in progress")), st)
  | none =>
    saveDeal cidString marshal putErr
      { st with deals := (proposalCid, Deal.mk minerAddr p resp) :: st.deals }
      proposalCid

end WithCidString

/-- loadDeals from client.go:267-278: reset the in-memory map, then
perform a single select on the (deals, doneOrError) channel pair
delivered by DealsLs. The enumeration is modelled as the list of deals
the producer will send followed by the final value of the done channel
(none = nil). With at least one deal pending, the deals arm is taken
once and the function returns nil; otherwise the done arm returns its
value. Only one select iteration exists in the source, so at most one
stored deal is ever inserted. -/
def loadDeals (enumDeals : List Deal) (doneOrError : Option GoErr)
    (st : ClientState) : Option GoErr × ClientState :=
  match enumDeals with
  | storageDeal :: _ =>
    (none, { st with deals := [(storageDeal.response.proposalCid, storageDeal)] })
  | [] =>
    match doneOrError with
    | some e => (some e, { st with deals := [] })
    | none => (none, { st with deals := [] })

/-- NewClient from client.go:85-96: fresh state, then loadDeals; a load
failure is wrapped as "failed to load client deals". -/
def NewClient (enumDeals : List Deal) (doneOrError : Option GoErr) :
    Except GoErr ClientState :=
  match loadDeals enumDeals doneOrError ⟨[], []⟩ with
  | (some e, _) => .error (e.wrap "failed to load client deals")
  | (none, st) => .ok st

/-- The sentinel error value multistream.ErrNotSupported, which
host.NewStream returns when the remote peer lacks the protocol; the
source compares stream-open errors against it with ==. -/
def errNotSupported : GoErr := .new "protocol not supported"

/-- MakeProtocolRequest from client.go:334-352 (ClientNodeImpl): open a
stream (newStreamErr is the failure of host.NewStream, if any),
classify an open failure by comparison with errNotSupported, then write
the framed request and read the framed response, wrapping write/read
failures. Returns none on success. -/
def MakeProtocolRequest (newStreamErr writeErr readErr : Option GoErr) : Option GoErr :=
  match newStreamErr with
  | some err =>
    if err = errNotSupported then
      some (.new "could not establish connection with peer. Peer does not support protocol")
    else
      some (err.wrap "failed to establish connection with the peer")
  | none =>
    match writeErr with
    | some err => some (err.wrap "failed to write request")
    | none =>
      match readErr with
      | some err => some (err.wrap "failed to read response")
      | none => none

/-- External calls a client operation can make, in the order performed;
used to state that certain collaborators are never invoked. -/
inductive Call
  | getFileSize
  | minerGetAsk
  | chainBlockHeight
  | configGet
  | minerGetOwnerAddress
  | createPayments
  | minerGetPeerID
  | makeProtocolRequest
  | recordResponse
deriving DecidableEq, Repr

/-- Modelled from the spec: the porcelain.CreatePaymentsReturn record
(porcelain package is not under src/): channel id, funding-message cid,
voucher sequence. -/
structure CreatePaymentsReturn where
  channel : Nat
  channelMsgCid : Cid
  vouchers : List Nat
deriving DecidableEq, Repr

/-- Outcomes of the external collaborators a ProposeDeal call consults,
one field per method of the clientNode / clientPorcelainAPI interfaces
used, plus the datastore put outcome used by persistence. -/
structure ClientEnv where
  getFileSize : Except GoErr Nat
  minerGetAsk : Except GoErr Int
  chainBlockHeight : Except GoErr Nat
  configGet : Except GoErr (Option Address)
  minerGetOwnerAddress : Except GoErr Address
  createPayments : Except GoErr CreatePaymentsReturn
  minerGetPeerID : Except GoErr PeerID
  makeProtocolRequest : Except GoErr DealResponse
  putResult : Option GoErr

section WithCidString2

variable (cidString : Cid → String)

/-- minerForProposal from client.go:234-243: look the proposal up in the
in-memory map and return its miner address, or the "no such proposal by
cid" error. -/
def minerForProposal (st : ClientState) (c : Cid) : Except GoErr Address :=
  match DealMap.find? st.deals c with
  | none => .error (.new ("no such proposal by cid: " ++ cidString c))
  | some d => .ok d.miner

/-- QueryDeal from client.go:246-265: resolve the miner for the stored
proposal, resolve that miner's peer id, and run the query-protocol
exchange; `peerRes` and `reqRes` are the outcomes of MinerGetPeerID and
MakeProtocolRequest. Returns the result, the (unchanged) client state,
and the list of external calls made. -/
def QueryDeal (peerRes : Except GoErr PeerID) (reqRes : Except GoErr DealResponse)
    (st : ClientState) (proposalCid : Cid) :
    Except GoErr DealResponse × ClientState × List Call :=
  match minerForProposal cidString st proposalCid with
  | .error e => (.error e, st, [])
  | .ok _mineraddr =>
    match peerRes with
    | .error e => (.error e, st, [.minerGetPeerID])
    | .ok _minerpid =>
      match reqRes with
      | .error e => (.error (e.wrap "error querying deal"), st, [.minerGetPeerID, .makeProtocolRequest])
      | .ok resp => (.ok resp, st, [.minerGetPeerID, .makeProtocolRequest])

end WithCidString2

/-- checkDealResponse from client.go:221-232: Rejected and Failed map to
errors carrying the miner's message, Accepted to success, and the
default branch (every other state, modelled by the fourth state value)
to the "invalid proposal response" error. Returns none on success. -/
def checkDealResponse (resp : DealResponse) : Option GoErr :=
  match resp.state with
  | .rejected => some (.new ("deal rejected: " ++ resp.message))
  | .failed => some (.new ("deal failed: " ++ resp.message))
  | .accepted => none
  | .unknown => some (.new ("invalid proposal response: " ++ stateString .unknown))

section WithCidString3

variable (cidString : Cid → String)

/-- The duplicate-resolution loop from client.go:152-159: while the
current proposal cid is a key of the store, set lastDuplicate to the
textual form of the colliding cid, recompute the cid with `toCid`
(convert.ToCid, passed as a parameter since it lives outside src/), and
propagate any toCid failure. The Go loop has no iteration bound; the
embedding adds explicit fuel and returns none when it runs out, which
models divergence. -/
def resolveDuplicates (toCid : Proposal → Except GoErr Cid) (store : Finset Cid) :
    Nat → Cid → Proposal → Option (Except GoErr (Cid × Proposal))
  | 0, c, p => if c ∈ store then none else some (.ok (c, p))
  | fuel + 1, c, p =>
    if c ∈ store then
      match toCid { p with lastDuplicate := cidString c } with
      | .error e => some (.error e)
      | .ok c2 => resolveDuplicates toCid store fuel c2 { p with lastDuplicate := cidString c }
    else some (.ok (c, p))

/-- ProposeDeal from client.go:99-203: size lookup, ask lookup, chain
height, wallet config, miner owner, proposal assembly, duplicate check
and resolution, payment creation, peer resolution, the deal-protocol
exchange, response validation, and recording. External collaborator
outcomes come from `env`; `toCid` is convert.ToCid and `marshal` is
cbor.DumpObject. The result is none when the duplicate-resolution loop
diverges, otherwise the call result, the resulting client state, and
the ordered list of collaborator calls made. -/
def ProposeDeal (toCid : Proposal → Except GoErr Cid) (marshal : Deal → Except GoErr Datum)
    (env : ClientEnv) (st : ClientState) (minerAddr : Address) (data : Cid)
    (_askID : Nat) (duration : Nat) (allowDuplicates : Bool) :
    Option (Except GoErr DealResponse × ClientState × List Call) :=
  match env.getFileSize with
  | .error e =>
    some (.error (e.wrap "failed to determine the size of the data"), st, [.getFileSize])
  | .ok size =>
  match env.minerGetAsk with
  | .error e =>
    some (.error (e.wrap "failed to get ask price"), st, [.getFileSize, .minerGetAsk])
  | .ok price =>
  match env.chainBlockHeight with
  | .error e =>
    some (.error e, st, [.getFileSize, .minerGetAsk, .chainBlockHeight])
  | .ok _chainHeight =>
  match env.configGet with
  | .error e =>
    some (.error e, st, [.getFileSize, .minerGetAsk, .chainBlockHeight, .configGet])
  | .ok fromVal =>
  match fromVal with
  | none =>
    some (.error (.new "Default wallet address is not set correctly"), st,
      [.getFileSize, .minerGetAsk, .chainBlockHeight, .configGet])
  | some fromAddress =>
  if fromAddress = 0 then
    some (.error (.new "Default wallet address is not set correctly"), st,
      [.getFileSize, .minerGetAsk, .chainBlockHeight, .configGet])
  else
  match env.minerGetOwnerAddress with
  | .error e =>
    some (.error e, st,
      [.getFileSize, .minerGetAsk, .chainBlockHeight, .configGet, .minerGetOwnerAddress])
  | .ok _minerOwner =>
  match toCid (buildProposal data size price duration minerAddr) with
  | .error e =>
    some (.error (e.wrap "failed to get cid of proposal"), st,
      [.getFileSize, .minerGetAsk, .chainBlockHeight, .configGet, .minerGetOwnerAddress])
  | .ok proposalCid =>
  if (DealMap.find? st.deals proposalCid).isSome && !allowDuplicates then
    some (.error errDuplicateDealMsg, st,
      [.getFileSize, .minerGetAsk, .chainBlockHeight, .configGet, .minerGetOwnerAddress])
  else
  match resolveDuplicates cidString toCid (keysOf st.deals) ((keysOf st.deals).card + 1)
      proposalCid (buildProposal data size price duration minerAddr) with
  | none => none
  | some (.error e) =>
    some (.error (e.wrap "failed to get cid of proposal"), st,
      [.getFileSize, .minerGetAsk, .chainBlockHeight, .configGet, .minerGetOwnerAddress])
  | some (.ok (finalCid, finalProposal)) =>
  match env.createPayments with
  | .error e =>
    some (.error e, st,
      [.getFileSize, .minerGetAsk, .chainBlockHeight, .configGet, .minerGetOwnerAddress,
        .createPayments])
  | .ok cpResp =>
  match env.minerGetPeerID with
  | .error e =>
    some (.error e, st,
      [.getFileSize, .minerGetAsk, .chainBlockHeight, .configGet, .minerGetOwnerAddress,
        .createPayments, .minerGetPeerID])
  | .ok _pid =>
  match env.makeProtocolRequest with
  | .error e =>
    some (.error (e.wrap "error sending proposal"), st,
      [.getFileSize, .minerGetAsk, .chainBlockHeight, .configGet, .minerGetOwnerAddress,
        .createPayments, .minerGetPeerID, .makeProtocolRequest])
  | .ok response =>
  match checkDealResponse response with
  | some e =>
    some (.error (e.wrap "response check failed"), st,
      [.getFileSize, .minerGetAsk, .chainBlockHeight, .configGet, .minerGetOwnerAddress,
        .createPayments, .minerGetPeerID, .makeProtocolRequest])
  | none =>
  match recordResponse cidString marshal env.putResult st response minerAddr
      { finalProposal with payment :=
          ⟨cpResp.channel, cidString cpResp.channelMsgCid, cpResp.vouchers⟩ }
      finalCid with
  | (some e, st2) =>
    some (.error (e.wrap "failed to track response"), st2,
      [.getFileSize, .minerGetAsk, .chainBlockHeight, .configGet, .minerGetOwnerAddress,
        .createPayments, .minerGetPeerID, .makeProtocolRequest, .recordResponse])
  | (none, st2) =>
    some (.ok response, st2,
      [.getFileSize, .minerGetAsk, .chainBlockHeight, .configGet, .minerGetOwnerAddress,
        .createPayments, .minerGetPeerID, .makeProtocolRequest, .recordResponse])

end WithCidString3

/-- The list of collaborator calls ProposeDeal has made once a response
has been received and checked. -/
def callsThroughResponse : List Call :=
  [.getFileSize, .minerGetAsk, .chainBlockHeight, .configGet, .minerGetOwnerAddress,
    .createPayments, .minerGetPeerID, .makeProtocolRequest]

/-- The list of collaborator calls ProposeDeal has made when it stops at
the duplicate check (before any payment or network activity). -/
def callsThroughOwner : List Call :=
  [.getFileSize, .minerGetAsk, .chainBlockHeight, .configGet, .minerGetOwnerAddress]

/-- Two proposals agreeing on every field except possibly lastDuplicate.
Every proposal the duplicate-resolution loop manipulates is related to
the initial one by this relation. -/
abbrev sameBase (q r : Proposal) : Prop :=
  q.pieceRef = r.pieceRef ∧ q.size = r.size ∧ q.totalPrice = r.totalPrice ∧
  q.duration = r.duration ∧ q.minerAddress = r.minerAddress ∧ q.payment = r.payment

/-- A lastDuplicate value the loop can produce: the zero value or the
textual form of some cid. -/
abbrev validTag (cidString : Cid → String) (q : Proposal) : Prop :=
  q.lastDuplicate = "" ∨ ∃ u, q.lastDuplicate = cidString u

/-- A lastDuplicate value produced from a cid of a given visited set (or
the zero value). -/
abbrev tagIn (cidString : Cid → String) (V : Finset Cid) (q : Proposal) : Prop :=
  q.lastDuplicate = "" ∨ ∃ u ∈ V, q.lastDuplicate = cidString u

/-- Witness fixture: an injective, never-empty textual rendering of
cids. -/
def cidStringW (c : Cid) : String := String.mk (List.replicate (c + 1) 'a')

/-- Witness fixture: a hash that is injective on the proposals the loop
visits (it reads only lastDuplicate, which under cidStringW determines
the originating cid). -/
def toCidW (q : Proposal) : Except GoErr Cid := .ok q.lastDuplicate.length

/-- Witness fixture: client environment in which every collaborator
succeeds. -/
def envW : ClientEnv :=
  { getFileSize := .ok 5
    minerGetAsk := .ok 10
    chainBlockHeight := .ok 100
    configGet := .ok (some 9)
    minerGetOwnerAddress := .ok 4
    createPayments := .ok ⟨77, 88, [1, 2]⟩
    minerGetPeerID := .ok 6
    makeProtocolRequest := .ok ⟨.accepted, "", 7⟩
    putResult := none }

end Storage

namespace Storage

/-- C1: the example scenario (price 10, size 5, duration 3) does yield
totalPrice 150, but the claim that the computation never overflows
fixed-width integers is false: for size = 2^32 and duration = 2^32 the
uint64 product size×duration wraps to 0 before reaching big-integer
arithmetic, so the built proposal's totalPrice is 0 instead of
10 × 2^32 × 2^32 = 10 × 2^64. -/
theorem totalPrice_uint64_wraps :
    (buildProposal 1 5 10 3 2).totalPrice = 150 ∧
    (buildProposal 1 (2 ^ 32) 10 (2 ^ 32) 2).totalPrice = 0 ∧
    (10 : Int) * 2 ^ 32 * 2 ^ 32 = 10 * 2 ^ 64 ∧
    (10 : Int) * 2 ^ 64 ≠ 0 := by
  refine ⟨?_, ?_, by norm_num, by norm_num⟩
  · show totalPriceCalc 10 5 3 = 150
    decide
  · show totalPriceCalc 10 (2 ^ 32) (2 ^ 32) = 0
    unfold totalPriceCalc goMulUint64 toInt64
    norm_num

/-- Lookup on a cons cell of the deals map. -/
theorem DealMap.find?_cons (k : Cid) (d : Deal) (m : DealMap) (c : Cid) :
    DealMap.find? ((k, d) :: m) c = if k = c then some d else DealMap.find? m c := by
  by_cases h : k = c <;> simp [DealMap.find?, List.find?_cons, h]

/-- saveDeal never changes the in-memory deals map. -/
theorem saveDeal_deals (cidString : Cid → String) (marshal : Deal → Except GoErr Datum)
    (putErr : Option GoErr) (st : ClientState) (c : Cid) :
    ((saveDeal cidString marshal putErr st c).2).deals = st.deals := by
  unfold saveDeal
  split
  · rfl
  · split
    · rfl
    · split
      · rfl
      · rfl

/-- Fixture: a proposal used by concrete test deals. -/
def proposalW : Proposal := buildProposal 1 5 10 3 2

/-- Fixture: first stored deal, keyed by proposal cid 11. -/
def dealW1 : Deal := Deal.mk 2 proposalW ⟨.accepted, "", 11⟩

/-- Fixture: second stored deal, keyed by proposal cid 22. -/
def dealW2 : Deal := Deal.mk 3 proposalW ⟨.accepted, "", 22⟩

/-- C2: refuted on the code. The store-reload routine run at client
construction performs a single select iteration, so with an enumeration
delivering two deals (cids 11 and 22) the load succeeds but the rebuilt
in-memory map contains only the first deal: the entry for cid 22 is
missing. -/
theorem loadDeals_restores_single_deal_only :
    NewClient [dealW1, dealW2] none = .ok ⟨[(11, dealW1)], []⟩ ∧
    dealW2.response.proposalCid = 22 ∧
    DealMap.find? [(11, dealW1)] 22 = none := by
  refine ⟨rfl, rfl, ?_⟩
  simp [DealMap.find?_cons, DealMap.find?, dealW1]

/-- C5: the Deal Store records at most one deal per proposal identity.
If an entry already exists for the proposal cid, recordResponse fails
with the "deal already in progress" error and leaves the whole state
unchanged; and whatever recordResponse does, every pre-existing entry of
the in-memory map is still present (and unchanged) afterwards. -/
theorem recordResponse_at_most_one (cidString : Cid → String)
    (marshal : Deal → Except GoErr Datum) (putErr : Option GoErr)
    (st : ClientState) (resp : DealResponse) (m : Address) (p : Proposal) (c : Cid) :
    (∀ d, DealMap.find? st.deals c = some d →
      recordResponse cidString marshal putErr st resp m p c =
        (some (.new ("deal [" ++ cidString c ++ "] is already in progress")), st)) ∧
    (∀ c₀ d₀, DealMap.find? st.deals c₀ = some d₀ →
      DealMap.find? ((recordResponse cidString marshal putErr st resp m p c).2).deals c₀ =
        some d₀) := by
  constructor
  · intro d h
    unfold recordResponse
    rw [h]
  · intro c₀ d₀ h₀
    unfold recordResponse
    cases hc : DealMap.find? st.deals c with
    | some d => exact h₀
    | none =>
      have hne : c ≠ c₀ := by
        intro he
        rw [he, h₀] at hc
        exact Option.noConfusion hc
      rw [saveDeal_deals]
      show DealMap.find? ((c, Deal.mk m p resp) :: st.deals) c₀ = some d₀
      rw [DealMap.find?_cons, if_neg hne]
      exact h₀

/-- C5 witness: with an entry for cid 11 present, recordResponse fails
with the in-progress error, keeps the state unchanged, and the existing
entry survives. -/
theorem recordResponse_at_most_one_witness :
    recordResponse (fun c => toString c) (fun _ => .ok []) none
        ⟨[(11, dealW1)], []⟩ dealW2.response 3 proposalW 11 =
      (some (.new ("deal [" ++ toString (11 : Nat) ++ "] is already in progress")),
        ⟨[(11, dealW1)], []⟩) ∧
    DealMap.find?
        ((recordResponse (fun c => toString c) (fun _ => .ok []) none
          ⟨[(11, dealW1)], []⟩ dealW2.response 3 proposalW 11).2).deals 11 = some dealW1 := by
  have h := recordResponse_at_most_one (fun c => toString c) (fun _ => .ok []) none
    ⟨[(11, dealW1)], []⟩ dealW2.response 3 proposalW 11
  exact ⟨h.1 dealW1 (by simp [DealMap.find?, List.find?_cons]),
         h.2 11 dealW1 (by simp [DealMap.find?, List.find?_cons])⟩

/-- C8: a record whose in-memory insertion succeeds but whose
persistence write fails returns the error naming the memory/disk
divergence, and the entry inserted into the in-memory map for the
proposal cid remains present (no rollback). -/
theorem recordResponse_persist_failure_keeps_entry (cidString : Cid → String)
    (marshal : Deal → Except GoErr Datum) (st : ClientState) (resp : DealResponse)
    (m : Address) (p : Proposal) (c : Cid) (e : GoErr) (dm : Datum)
    (hfresh : DealMap.find? st.deals c = none)
    (hm : marshal (Deal.mk m p resp) = .ok dm) :
    recordResponse cidString marshal (some e) st resp m p c =
      (some (e.wrap "could not save client deal to disk, in-memory deals differ from persisted deals!"),
        { st with deals := (c, Deal.mk m p resp) :: st.deals }) ∧
    DealMap.find? ((c, Deal.mk m p resp) :: st.deals) c = some (Deal.mk m p resp) := by
  have hmem : DealMap.find? ((c, Deal.mk m p resp) :: st.deals) c = some (Deal.mk m p resp) := by
    rw [DealMap.find?_cons, if_pos rfl]
  refine ⟨?_, hmem⟩
  unfold recordResponse
  rw [hfresh]
  unfold saveDeal
  show (match DealMap.find? ((c, Deal.mk m p resp) :: st.deals) c with
    | none => _
    | some storageDeal => _) = _
  rw [hmem]
  dsimp only
  rw [hm]

/-- C8 witness: recording deal cid 7 into the empty store with a failing
datastore put returns the divergence error while the in-memory entry for
cid 7 stays. -/
theorem recordResponse_persist_failure_keeps_entry_witness :
    recordResponse (fun c => toString c) (fun _ => .ok []) (some (.new "io"))
        ⟨[], []⟩ dealW1.response 2 proposalW 7 =
      (some ((GoErr.new "io").wrap "could not save client deal to disk, in-memory deals differ from persisted deals!"),
        ⟨[(7, Deal.mk 2 proposalW dealW1.response)], []⟩) ∧
    DealMap.find? [(7, Deal.mk 2 proposalW dealW1.response)] 7 =
      some (Deal.mk 2 proposalW dealW1.response) := by
  exact recordResponse_persist_failure_keeps_entry (fun c => toString c)
    (fun _ => .ok []) ⟨[], []⟩ dealW1.response 2 proposalW 7 (.new "io") []
    rfl rfl

/-- C7: classification of protocol-exchange failures. A stream-open
failure equal to the protocol-unsupported sentinel yields the
distinguished "Peer does not support protocol" error; any other
stream-open failure is wrapped as "failed to establish connection with
the peer"; a write failure is wrapped as "failed to write request"; a
read failure is wrapped as "failed to read response"; and with no
failures the exchange succeeds. -/
theorem makeProtocolRequest_error_classes (writeErr readErr : Option GoErr) :
    (MakeProtocolRequest (some errNotSupported) writeErr readErr =
      some (.new "could not establish connection with peer. Peer does not support protocol")) ∧
    (∀ e, e ≠ errNotSupported →
      MakeProtocolRequest (some e) writeErr readErr =
        some (e.wrap "failed to establish connection with the peer")) ∧
    (∀ e, writeErr = some e →
      MakeProtocolRequest none writeErr readErr = some (e.wrap "failed to write request")) ∧
    (∀ e, writeErr = none → readErr = some e →
      MakeProtocolRequest none writeErr readErr = some (e.wrap "failed to read response")) ∧
    (writeErr = none → readErr = none → MakeProtocolRequest none writeErr readErr = none) := by
  refine ⟨?_, ?_, ?_, ?_, ?_⟩
  · unfold MakeProtocolRequest
    dsimp only
    rw [if_pos rfl]
  · intro e he
    unfold MakeProtocolRequest
    dsimp only
    rw [if_neg he]
  · intro e he
    unfold MakeProtocolRequest
    rw [he]
  · intro e hw hr
    unfold MakeProtocolRequest
    rw [hw, hr]
  · intro hw hr
    unfold MakeProtocolRequest
    rw [hw, hr]

/-- C7 witness: each classification branch evaluated at a concrete
stream failure. -/
theorem makeProtocolRequest_error_classes_witness :
    MakeProtocolRequest (some errNotSupported) none none =
      some (.new "could not establish connection with peer. Peer does not support protocol") ∧
    MakeProtocolRequest (some (.new "conn refused")) none none =
      some ((GoErr.new "conn refused").wrap "failed to establish connection with the peer") ∧
    MakeProtocolRequest none (some (.new "pipe")) none =
      some ((GoErr.new "pipe").wrap "failed to write request") ∧
    MakeProtocolRequest none none (some (.new "eof")) =
      some ((GoErr.new "eof").wrap "failed to read response") ∧
    MakeProtocolRequest none none none = none := by
  refine ⟨(makeProtocolRequest_error_classes none none).1,
    (makeProtocolRequest_error_classes none none).2.1 (.new "conn refused") (by decide),
    (makeProtocolRequest_error_classes (some (.new "pipe")) none).2.2.1 (.new "pipe") rfl,
    (makeProtocolRequest_error_classes none (some (.new "eof"))).2.2.2.1 (.new "eof") rfl rfl,
    (makeProtocolRequest_error_classes none none).2.2.2.2 rfl rfl⟩

/-- C9: QueryDeal never mutates the Deal Store: whatever the outcome
(lookup failure, peer-resolution failure, transport failure, or
success), the returned client state — in-memory deals map and persisted
entries alike — is exactly the input state. -/
theorem queryDeal_preserves_store (cidString : Cid → String)
    (peerRes : Except GoErr PeerID) (reqRes : Except GoErr DealResponse)
    (st : ClientState) (c : Cid) :
    (QueryDeal cidString peerRes reqRes st c).2.1 = st := by
  unfold QueryDeal
  split
  · rfl
  · split
    · rfl
    · split
      · rfl
      · rfl

/-- C10: querying a proposal identity that was never recorded returns
the "no such proposal by cid" error and makes no external call at all:
neither MinerGetPeerID nor MakeProtocolRequest is invoked. -/
theorem queryDeal_unknown_proposal (cidString : Cid → String)
    (peerRes : Except GoErr PeerID) (reqRes : Except GoErr DealResponse)
    (st : ClientState) (c : Cid)
    (hfresh : DealMap.find? st.deals c = none) :
    QueryDeal cidString peerRes reqRes st c =
      (.error (.new ("no such proposal by cid: " ++ cidString c)), st, []) ∧
    Call.minerGetPeerID ∉ ([] : List Call) ∧
    Call.makeProtocolRequest ∉ ([] : List Call) := by
  refine ⟨?_, by simp, by simp⟩
  unfold QueryDeal minerForProposal
  rw [hfresh]

/-- C10 witness: querying cid 99 against a store holding only cid 11
fails with the no-such-proposal error and performs no calls. -/
theorem queryDeal_unknown_proposal_witness :
    QueryDeal (fun c => toString c) (.ok 5) (.ok dealW1.response)
        ⟨[(11, dealW1)], []⟩ 99 =
      (.error (.new ("no such proposal by cid: " ++ toString (99 : Nat))),
        ⟨[(11, dealW1)], []⟩, []) ∧
    Call.minerGetPeerID ∉ ([] : List Call) ∧
    Call.makeProtocolRequest ∉ ([] : List Call) := by
  exact queryDeal_unknown_proposal (fun c => toString c) (.ok 5) (.ok dealW1.response)
    ⟨[(11, dealW1)], []⟩ 99 (by simp [DealMap.find?, List.find?_cons])

/-- Membership in the key set of the deals map agrees with map lookup. -/
theorem mem_keysOf (m : DealMap) (c : Cid) :
    c ∈ keysOf m ↔ (DealMap.find? m c).isSome := by
  induction m with
  | nil => simp [keysOf, DealMap.find?]
  | cons a t ih =>
    obtain ⟨k, d⟩ := a
    by_cases h : k = c
    · subst h
      simp [keysOf, DealMap.find?_cons]
    · have h' : ¬c = k := fun hc => h hc.symm
      simp only [keysOf, List.map_cons, List.toFinset_cons, Finset.mem_insert,
        DealMap.find?_cons, if_neg h] at ih ⊢
      simp only [h', false_or]
      exact ih

/-- After recording a fresh proposal cid, the in-memory map holds the
recorded deal under that cid (whatever the persistence outcome was). -/
theorem recordResponse_inserts (cidString : Cid → String)
    (marshal : Deal → Except GoErr Datum) (putErr : Option GoErr) (st : ClientState)
    (resp : DealResponse) (m : Address) (p : Proposal) (c : Cid)
    (hfresh : DealMap.find? st.deals c = none) :
    DealMap.find? ((recordResponse cidString marshal putErr st resp m p c).2).deals c =
      some (Deal.mk m p resp) := by
  unfold recordResponse
  rw [hfresh]
  dsimp only
  rw [saveDeal_deals]
  show DealMap.find? ((c, Deal.mk m p resp) :: st.deals) c = some (Deal.mk m p resp)
  rw [DealMap.find?_cons, if_pos rfl]

/-- C3: a ProposeDeal call whose built proposal's cid already exists in
the Deal Store, with allowDuplicates = false, returns exactly the
distinguished duplicate-proposal error of the Errors map (whose message
instructs the caller to pass --allow-duplicates), leaves the state
unchanged, and its call trace contains neither CreatePayments nor
MakeProtocolRequest. -/
theorem proposeDeal_duplicate_rejected (cidString : Cid → String)
    (toCid : Proposal → Except GoErr Cid) (marshal : Deal → Except GoErr Datum)
    (env : ClientEnv) (st : ClientState) (minerAddr : Address) (data : Cid)
    (askID duration : Nat) (size : Nat) (price : Int) (height : Nat)
    (fromAddr owner : Address) (c0 : Cid) (d : Deal)
    (h1 : env.getFileSize = .ok size) (h2 : env.minerGetAsk = .ok price)
    (h3 : env.chainBlockHeight = .ok height)
    (h4 : env.configGet = .ok (some fromAddr)) (h4e : fromAddr ≠ 0)
    (h5 : env.minerGetOwnerAddress = .ok owner)
    (h6 : toCid (buildProposal data size price duration minerAddr) = .ok c0)
    (hdup : DealMap.find? st.deals c0 = some d) :
    ProposeDeal cidString toCid marshal env st minerAddr data askID duration false =
      some (.error errDuplicateDealMsg, st, callsThroughOwner) ∧
    Errors ErrDuplicateDeal = some errDuplicateDealMsg ∧
    Call.createPayments ∉ callsThroughOwner ∧
    Call.makeProtocolRequest ∉ callsThroughOwner := by
  refine ⟨?_, rfl, by decide, by decide⟩
  simp only [ProposeDeal, h1, h2, h3, h4, h5, h6, hdup, callsThroughOwner,
    Option.isSome_some, Bool.not_false, Bool.and_true, if_neg h4e, if_true]

/-- C3 witness: duplicate rejection at a concrete store holding the
colliding cid 7; the error is the Errors-map entry and no payment or
network call occurs. -/
theorem proposeDeal_duplicate_rejected_witness :
    ProposeDeal cidStringW (fun _ => .ok 7) (fun _ => .ok []) envW
        ⟨[(7, dealW1)], []⟩ 2 1 0 3 false =
      some (.error errDuplicateDealMsg, ⟨[(7, dealW1)], []⟩, callsThroughOwner) ∧
    Errors ErrDuplicateDeal = some errDuplicateDealMsg ∧
    Call.createPayments ∉ callsThroughOwner ∧
    Call.makeProtocolRequest ∉ callsThroughOwner := by
  exact proposeDeal_duplicate_rejected cidStringW (fun _ => .ok 7) (fun _ => .ok [])
    envW ⟨[(7, dealW1)], []⟩ 2 1 0 3 5 10 100 9 4 7 dealW1
    rfl rfl rfl rfl (by decide) rfl rfl rfl

/-- C4: the response state gates persistence. With a response received
from the deal-protocol exchange: Accepted leads to recordResponse being
invoked and the deal being present in the in-memory map under the
proposal cid; Rejected and Failed return the wrapped error carrying the
miner's message, with the state unchanged and no record call; any other
state returns the wrapped "invalid proposal response" error, with the
state unchanged and no record call. -/
theorem proposeDeal_response_gating (cidString : Cid → String)
    (toCid : Proposal → Except GoErr Cid) (marshal : Deal → Except GoErr Datum)
    (env : ClientEnv) (st : ClientState) (minerAddr : Address) (data : Cid)
    (askID duration : Nat) (allowDuplicates : Bool) (size : Nat) (price : Int)
    (height : Nat) (fromAddr owner : Address) (c0 : Cid) (cp : CreatePaymentsReturn)
    (pid : PeerID) (resp : DealResponse)
    (h1 : env.getFileSize = .ok size) (h2 : env.minerGetAsk = .ok price)
    (h3 : env.chainBlockHeight = .ok height)
    (h4 : env.configGet = .ok (some fromAddr)) (h4e : fromAddr ≠ 0)
    (h5 : env.minerGetOwnerAddress = .ok owner)
    (h6 : toCid (buildProposal data size price duration minerAddr) = .ok c0)
    (hfresh : DealMap.find? st.deals c0 = none)
    (h8 : env.createPayments = .ok cp) (h9 : env.minerGetPeerID = .ok pid)
    (h10 : env.makeProtocolRequest = .ok resp) :
    (resp.state = .accepted →
      ∃ r st2,
        ProposeDeal cidString toCid marshal env st minerAddr data askID duration
            allowDuplicates =
          some (r, st2, callsThroughResponse ++ [.recordResponse]) ∧
        DealMap.find? st2.deals c0 =
          some (Deal.mk minerAddr
            { buildProposal data size price duration minerAddr with payment :=
                ⟨cp.channel, cidString cp.channelMsgCid, cp.vouchers⟩ } resp)) ∧
    (resp.state = .rejected →
      ProposeDeal cidString toCid marshal env st minerAddr data askID duration
          allowDuplicates =
        some (.error ((GoErr.new ("deal rejected: " ++ resp.message)).wrap
          "response check failed"), st, callsThroughResponse)) ∧
    (resp.state = .failed →
      ProposeDeal cidString toCid marshal env st minerAddr data askID duration
          allowDuplicates =
        some (.error ((GoErr.new ("deal failed: " ++ resp.message)).wrap
          "response check failed"), st, callsThroughResponse)) ∧
    (resp.state = .unknown →
      ProposeDeal cidString toCid marshal env st minerAddr data askID duration
          allowDuplicates =
        some (.error ((GoErr.new ("invalid proposal response: " ++
          stateString .unknown)).wrap "response check failed"), st,
          callsThroughResponse)) := by
  have hnot : c0 ∉ keysOf st.deals := by
    rw [mem_keysOf, hfresh]
    simp
  refine ⟨?_, ?_, ?_, ?_⟩
  · intro hst
    simp only [ProposeDeal, h1, h2, h3, h4, h5, h6, h8, h9, h10, hfresh,
      Option.isSome_none, Bool.false_and, Bool.false_eq_true, if_false, if_neg h4e,
      resolveDuplicates, if_neg hnot, checkDealResponse, hst]
    rcases hrec : recordResponse cidString marshal env.putResult st resp minerAddr
      { buildProposal data size price duration minerAddr with payment :=
          ⟨cp.channel, cidString cp.channelMsgCid, cp.vouchers⟩ } c0 with ⟨errRes, st2⟩
    have hins := recordResponse_inserts cidString marshal env.putResult st resp minerAddr
      { buildProposal data size price duration minerAddr with payment :=
          ⟨cp.channel, cidString cp.channelMsgCid, cp.vouchers⟩ } c0 hfresh
    rw [hrec] at hins
    cases errRes with
    | some e =>
      exact ⟨.error (e.wrap "failed to track response"), st2,
        by simp [callsThroughResponse], hins⟩
    | none =>
      exact ⟨.ok resp, st2, by simp [callsThroughResponse], hins⟩
  · intro hst
    simp only [ProposeDeal, h1, h2, h3, h4, h5, h6, h8, h9, h10, hfresh,
      Option.isSome_none, Bool.false_and, Bool.false_eq_true, if_false, if_neg h4e,
      resolveDuplicates, if_neg hnot, checkDealResponse, hst, callsThroughResponse]
  · intro hst
    simp only [ProposeDeal, h1, h2, h3, h4, h5, h6, h8, h9, h10, hfresh,
      Option.isSome_none, Bool.false_and, Bool.false_eq_true, if_false, if_neg h4e,
      resolveDuplicates, if_neg hnot, checkDealResponse, hst, callsThroughResponse]
  · intro hst
    simp only [ProposeDeal, h1, h2, h3, h4, h5, h6, h8, h9, h10, hfresh,
      Option.isSome_none, Bool.false_and, Bool.false_eq_true, if_false, if_neg h4e,
      resolveDuplicates, if_neg hnot, checkDealResponse, hst, callsThroughResponse]

/-- C4 witness: with an all-success environment delivering an Accepted
response for a fresh proposal cid 7, the deal is recorded; the three
non-accepted implications are discharged vacuously by the concrete
response state. -/
theorem proposeDeal_response_gating_witness :
    (DealResponse.mk .accepted "" 7).state = .accepted ∧
    (∃ r st2,
      ProposeDeal cidStringW (fun _ => .ok 7) (fun _ => .ok []) envW ⟨[], []⟩
          2 1 0 3 false =
        some (r, st2, callsThroughResponse ++ [.recordResponse]) ∧
      DealMap.find? st2.deals 7 =
        some (Deal.mk 2
          { buildProposal 1 5 10 3 2 with payment :=
              ⟨77, cidStringW 88, [1, 2]⟩ } (DealResponse.mk .accepted "" 7))) := by
  have h := proposeDeal_response_gating cidStringW (fun _ => .ok 7) (fun _ => .ok [])
    envW ⟨[], []⟩ 2 1 0 3 false 5 10 100 9 4 7 ⟨77, 88, [1, 2]⟩ 6
    (DealResponse.mk .accepted "" 7)
    rfl rfl rfl rfl (by decide) rfl rfl rfl rfl rfl rfl
  exact ⟨rfl, h.1 rfl⟩

/-- Every proposal is sameBase-related to itself. -/
theorem sameBase_refl (p : Proposal) : sameBase p p := ⟨rfl, rfl, rfl, rfl, rfl, rfl⟩

/-- Overwriting lastDuplicate preserves the sameBase relation. -/
theorem sameBase_setTag {q r : Proposal} (h : sameBase q r) (s : String) :
    sameBase q { r with lastDuplicate := s } := h

/-- Proposals agreeing on the base fields and on lastDuplicate are equal. -/
theorem Proposal.eq_of_sameBase {q r : Proposal} (h : sameBase q r)
    (hl : q.lastDuplicate = r.lastDuplicate) : q = r := by
  obtain ⟨h1, h2, h3, h4, h5, h6⟩ := h
  cases q
  cases r
  simp_all

/-- A tag drawn from a visited set is still drawn from any larger set. -/
theorem tagIn_mono (cidString : Cid → String) {V W : Finset Cid} {q : Proposal}
    (hVW : V ⊆ W) (h : tagIn cidString V q) : tagIn cidString W q := by
  rcases h with h0 | ⟨u, hu, he⟩
  · exact Or.inl h0
  · exact Or.inr ⟨u, hVW hu, he⟩

/-- A tag drawn from a visited set is a valid tag. -/
theorem validTag_of_tagIn (cidString : Cid → String) {V : Finset Cid} {q : Proposal}
    (h : tagIn cidString V q) : validTag cidString q := by
  rcases h with h0 | ⟨u, _, he⟩
  · exact Or.inl h0
  · exact Or.inr ⟨u, he⟩

/-- Partial correctness of the duplicate-resolution loop: a successful
result is a cid outside the store, and either no iteration ran (result
is the input) or the final proposal's lastDuplicate is the textual form
of the immediately prior colliding cid (a store member) of which the
final cid is the hash. -/
theorem resolveDuplicates_ok (cidString : Cid → String)
    (toCid : Proposal → Except GoErr Cid) (store : Finset Cid) :
    ∀ (fuel : Nat) (c : Cid) (p : Proposal) (c2 : Cid) (p2 : Proposal),
      resolveDuplicates cidString toCid store fuel c p = some (.ok (c2, p2)) →
      c2 ∉ store ∧ ((c2 = c ∧ p2 = p) ∨
        ∃ cPrev ∈ store, p2.lastDuplicate = cidString cPrev ∧ toCid p2 = .ok c2) := by
  intro fuel
  induction fuel with
  | zero =>
    intro c p c2 p2 h
    by_cases hcs : c ∈ store
    · simp [resolveDuplicates, hcs] at h
    · simp only [resolveDuplicates, if_neg hcs, Option.some.injEq, Except.ok.injEq,
        Prod.mk.injEq] at h
      obtain ⟨hc, hp⟩ := h
      subst hc
      subst hp
      exact ⟨hcs, Or.inl ⟨rfl, rfl⟩⟩
  | succ fuel ih =>
    intro c p c2 p2 h
    by_cases hcs : c ∈ store
    · simp only [resolveDuplicates] at h
      rw [if_pos hcs] at h
      cases htc : toCid { p with lastDuplicate := cidString c } with
      | error e =>
        rw [htc] at h
        simp at h
      | ok c3 =>
        rw [htc] at h
        dsimp only at h
        obtain ⟨hnot, hcase⟩ := ih c3 { p with lastDuplicate := cidString c } c2 p2 h
        refine ⟨hnot, Or.inr ?_⟩
        rcases hcase with ⟨hc2, hp2⟩ | ⟨cPrev, hmem, hld, htc2⟩
        · subst hc2
          subst hp2
          exact ⟨c, hcs, rfl, htc⟩
        · exact ⟨cPrev, hmem, hld, htc2⟩
    · simp only [resolveDuplicates, if_neg hcs, Option.some.injEq, Except.ok.injEq,
        Prod.mk.injEq] at h
      obtain ⟨hc, hp⟩ := h
      subst hc
      subst hp
      exact ⟨hcs, Or.inl ⟨rfl, rfl⟩⟩

/-- Error propagation of the duplicate-resolution loop: an error result
is exactly a toCid failure on one of the perturbed proposals, never
masked. -/
theorem resolveDuplicates_error (cidString : Cid → String)
    (toCid : Proposal → Except GoErr Cid) (store : Finset Cid) :
    ∀ (fuel : Nat) (c : Cid) (p : Proposal) (e : GoErr),
      resolveDuplicates cidString toCid store fuel c p = some (.error e) →
      ∃ q cPrev, cPrev ∈ store ∧ q.lastDuplicate = cidString cPrev ∧ toCid q = .error e := by
  intro fuel
  induction fuel with
  | zero =>
    intro c p e h
    by_cases hcs : c ∈ store <;> simp [resolveDuplicates, hcs] at h
  | succ fuel ih =>
    intro c p e h
    by_cases hcs : c ∈ store
    · simp only [resolveDuplicates] at h
      rw [if_pos hcs] at h
      cases htc : toCid { p with lastDuplicate := cidString c } with
      | error e2 =>
        rw [htc] at h
        simp only [Option.some.injEq, Except.error.injEq] at h
        subst h
        exact ⟨{ p with lastDuplicate := cidString c }, c, hcs, rfl, htc⟩
      | ok c3 =>
        rw [htc] at h
        dsimp only at h
        exact ih c3 { p with lastDuplicate := cidString c } e h
    · simp [resolveDuplicates, hcs] at h

/-- Termination of the duplicate-resolution loop, under the spec's
identity invariant (any field change yields a new identity, i.e. the
hash is injective on proposals sharing the base fields) and an injective
never-empty textual cid form: with fuel exceeding the number of store
keys not yet visited, the loop cannot run out of fuel, because each
iteration consumes a store key that can never be revisited. -/
theorem resolveDuplicates_total (cidString : Cid → String)
    (toCid : Proposal → Except GoErr Cid) (store : Finset Cid) (p0 : Proposal)
    (Hinj : ∀ q r x, sameBase p0 q → sameBase p0 r → validTag cidString q →
      validTag cidString r → toCid q = .ok x → toCid r = .ok x → q = r)
    (Hstr : Function.Injective cidString)
    (Hne : ∀ u, cidString u ≠ "") :
    ∀ (fuel : Nat) (c : Cid) (p : Proposal) (V : Finset Cid),
      V ⊆ store → c ∉ V → store.card ≤ fuel + V.card →
      toCid p = .ok c → sameBase p0 p → tagIn cidString V p →
      (∀ v ∈ V, ∃ r, toCid r = .ok v ∧ sameBase p0 r ∧ tagIn cidString V r) →
      resolveDuplicates cidString toCid store fuel c p ≠ none := by
  intro fuel
  induction fuel with
  | zero =>
    intro c p V hVsub hcV hcard _ _ _ _
    have hcs : c ∉ store := by
      intro hc
      have hsub : insert c V ⊆ store := Finset.insert_subset hc hVsub
      have h1 : (insert c V).card ≤ store.card := Finset.card_le_card hsub
      rw [Finset.card_insert_of_not_mem hcV] at h1
      omega
    simp [resolveDuplicates, hcs]
  | succ fuel ih =>
    intro c p V hVsub hcV hcard htc hsb htag hhist
    by_cases hcs : c ∈ store
    · simp only [resolveDuplicates]
      rw [if_pos hcs]
      cases htc2 : toCid { p with lastDuplicate := cidString c } with
      | error e => simp
      | ok c2 =>
        dsimp only
        have hsb2 : sameBase p0 { p with lastDuplicate := cidString c } :=
          sameBase_setTag hsb _
        have hvt2 : validTag cidString { p with lastDuplicate := cidString c } :=
          Or.inr ⟨c, rfl⟩
        have hvtp : validTag cidString p := validTag_of_tagIn cidString htag
        have hc2ne : c2 ≠ c := by
          intro he
          have htc2e : toCid { p with lastDuplicate := cidString c } = .ok c := he ▸ htc2
          have heq := Hinj { p with lastDuplicate := cidString c } p c hsb2 hsb hvt2 hvtp
            htc2e htc
          have hld : cidString c = p.lastDuplicate := congrArg Proposal.lastDuplicate heq
          rcases htag with h0 | ⟨u, huV, hu⟩
          · exact Hne c (hld.trans h0)
          · rw [hu] at hld
            have hcu : c = u := Hstr hld
            rw [hcu] at hcV
            exact hcV huV
        have hc2V : c2 ∉ V := by
          intro hin
          obtain ⟨r, hr1, hr2, hr3⟩ := hhist c2 hin
          have heq := Hinj { p with lastDuplicate := cidString c } r c2 hsb2 hr2 hvt2
            (validTag_of_tagIn cidString hr3) htc2 hr1
          have hld : cidString c = r.lastDuplicate := congrArg Proposal.lastDuplicate heq
          rcases hr3 with h0 | ⟨u, huV, hu⟩
          · exact Hne c (hld.trans h0)
          · rw [hu] at hld
            have hcu : c = u := Hstr hld
            rw [hcu] at hcV
            exact hcV huV
        refine ih c2 { p with lastDuplicate := cidString c } (insert c V)
          (Finset.insert_subset hcs hVsub) ?_ ?_ htc2 hsb2 ?_ ?_
        · intro hin
          rcases Finset.mem_insert.mp hin with he | hin2
          · exact hc2ne he
          · exact hc2V hin2
        · rw [Finset.card_insert_of_not_mem hcV]
          omega
        · exact Or.inr ⟨c, Finset.mem_insert_self c V, rfl⟩
        · intro v hv
          rcases Finset.mem_insert.mp hv with he | hv2
          · rw [he]
            exact ⟨p, htc, hsb, tagIn_mono cidString (Finset.subset_insert c V) htag⟩
          · obtain ⟨r, hr1, hr2, hr3⟩ := hhist v hv2
            exact ⟨r, hr1, hr2, tagIn_mono cidString (Finset.subset_insert c V) hr3⟩
    · simp [resolveDuplicates, hcs]

/-- C6: the duplicate-resolution loop of ProposeDeal (allowDuplicates
true, colliding initial cid), run with the fuel ProposeDeal supplies
(store size + 1), terminates: it yields either a success whose cid is
distinct from every key currently in the store and whose proposal's
lastDuplicate holds the textual form of the immediately prior colliding
store key (of which the final cid is the recomputed hash), or a
propagated toCid failure on one of the perturbed proposals. The
hypotheses are the spec's identity invariant — the content hash is
deterministic and any field change (here lastDuplicate) yields a new
identity, i.e. injectivity on proposals sharing the base fields — and
an injective, never-empty textual cid rendering. -/
theorem resolveDuplicates_terminates_unique (cidString : Cid → String)
    (toCid : Proposal → Except GoErr Cid) (store : Finset Cid) (p0 : Proposal) (c0 : Cid)
    (Hinj : ∀ q r x, sameBase p0 q → sameBase p0 r → validTag cidString q →
      validTag cidString r → toCid q = .ok x → toCid r = .ok x → q = r)
    (Hstr : Function.Injective cidString)
    (Hne : ∀ u, cidString u ≠ "")
    (hc0 : toCid p0 = .ok c0) (hp0 : p0.lastDuplicate = "") (hcol : c0 ∈ store) :
    ∃ r, resolveDuplicates cidString toCid store (store.card + 1) c0 p0 = some r ∧
      (∀ c2 p2, r = .ok (c2, p2) → c2 ∉ store ∧
        ∃ cPrev ∈ store, p2.lastDuplicate = cidString cPrev ∧ toCid p2 = .ok c2) ∧
      (∀ e, r = .error e → ∃ q cPrev, cPrev ∈ store ∧
        q.lastDuplicate = cidString cPrev ∧ toCid q = .error e) := by
  have htot := resolveDuplicates_total cidString toCid store p0 Hinj Hstr Hne
    (store.card + 1) c0 p0 ∅ (Finset.empty_subset store) (Finset.not_mem_empty c0)
    (by rw [Finset.card_empty]; omega) hc0 (sameBase_refl p0) (Or.inl hp0)
    (by intro v hv; exact absurd hv (Finset.not_mem_empty v))
  cases hres : resolveDuplicates cidString toCid store (store.card + 1) c0 p0 with
  | none => exact absurd hres htot
  | some r =>
    refine ⟨r, rfl, ?_, ?_⟩
    · intro c2 p2 hr
      subst hr
      obtain ⟨hnot, hcase⟩ := resolveDuplicates_ok cidString toCid store
        (store.card + 1) c0 p0 c2 p2 hres
      refine ⟨hnot, ?_⟩
      rcases hcase with ⟨hc2, _⟩ | hgood
      · rw [hc2] at hnot
        exact absurd hcol hnot
      · exact hgood
    · intro e hr
      subst hr
      exact resolveDuplicates_error cidString toCid store (store.card + 1) c0 p0 e hres

/-- The witness cid rendering has length cid + 1. -/
theorem cidStringW_length (u : Cid) : (cidStringW u).length = u + 1 := by
  simp [cidStringW, String.length]

/-- The witness cid rendering is never the empty string. -/
theorem cidStringW_ne_empty (u : Cid) : cidStringW u ≠ "" := by
  intro h
  have h2 := congrArg String.length h
  rw [cidStringW_length] at h2
  simp at h2

/-- The witness cid rendering is injective. -/
theorem cidStringW_injective : Function.Injective cidStringW := by
  intro a b h
  have h2 := congrArg String.length h
  rw [cidStringW_length, cidStringW_length] at h2
  exact Nat.succ_injective h2

/-- The witness hash is injective on same-base proposals carrying valid
tags: the tag's length determines the tag among valid tags. -/
theorem toCidW_inj (p0 : Proposal) :
    ∀ q r x, sameBase p0 q → sameBase p0 r → validTag cidStringW q →
      validTag cidStringW r → toCidW q = .ok x → toCidW r = .ok x → q = r := by
  intro q r x hq hr vq vr tq tr
  have hxq : q.lastDuplicate.length = x := by
    simpa [toCidW] using tq
  have hxr : r.lastDuplicate.length = x := by
    simpa [toCidW] using tr
  have hcases : ∀ s : String, (s = "" ∨ ∃ u, s = cidStringW u) → s.length = x →
      (x = 0 ∧ s = "") ∨ ∃ u, x = u + 1 ∧ s = cidStringW u := by
    rintro s (rfl | ⟨u, rfl⟩) hn
    · left
      refine ⟨?_, rfl⟩
      rw [← hn]
      rfl
    · right
      refine ⟨u, ?_, rfl⟩
      rw [← hn, cidStringW_length]
  have hld : q.lastDuplicate = r.lastDuplicate := by
    rcases hcases q.lastDuplicate vq hxq with ⟨hx0, hq0⟩ | ⟨u, hxu, hqu⟩
    · rcases hcases r.lastDuplicate vr hxr with ⟨_, hr0⟩ | ⟨v, hxv, _⟩
      · rw [hq0, hr0]
      · rw [hx0] at hxv
        exact absurd hxv.symm (Nat.succ_ne_zero v)
    · rcases hcases r.lastDuplicate vr hxr with ⟨hx0, _⟩ | ⟨v, hxv, hrv⟩
      · rw [hx0] at hxu
        exact absurd hxu.symm (Nat.succ_ne_zero u)
      · rw [hxu] at hxv
        have huv : u = v := Nat.succ_injective hxv
        rw [hqu, hrv, huv]
  have hqr : sameBase q r := by
    obtain ⟨a1, a2, a3, a4, a5, a6⟩ := hq
    obtain ⟨b1, b2, b3, b4, b5, b6⟩ := hr
    exact ⟨a1.symm.trans b1, a2.symm.trans b2, a3.symm.trans b3, a4.symm.trans b4,
      a5.symm.trans b5, a6.symm.trans b6⟩
  exact Proposal.eq_of_sameBase hqr hld

/-- C6 witness: with store {0}, initial proposal proposalW (empty
lastDuplicate, hash 0 colliding with the store), the loop at fuel
card + 1 terminates with the guaranteed outcome shape. -/
theorem resolveDuplicates_terminates_unique_witness :
    ∃ r, resolveDuplicates cidStringW toCidW {0} (Finset.card {0} + 1) 0 proposalW =
        some r ∧
      (∀ c2 p2, r = .ok (c2, p2) → c2 ∉ ({0} : Finset Cid) ∧
        ∃ cPrev ∈ ({0} : Finset Cid), p2.lastDuplicate = cidStringW cPrev ∧
          toCidW p2 = .ok c2) ∧
      (∀ e, r = .error e → ∃ q cPrev, cPrev ∈ ({0} : Finset Cid) ∧
        q.lastDuplicate = cidStringW cPrev ∧ toCidW q = .error e) := by
  exact resolveDuplicates_terminates_unique cidStringW toCidW {0} proposalW 0
    (toCidW_inj proposalW) cidStringW_injective cidStringW_ne_empty rfl rfl
    (Finset.mem_singleton_self 0)

end Storage
